import Mathlib

/-!
Verification development for the CSE3000 speech-intelligibility metric
repository.  The Python sources are embedded shallowly:

* `src/cal_kendall.py`   → section `CalKendall`
* `src/variance_test.py` → section `VarianceTest`
* `src/get_estoi.py`     → section `GetEstoi`
* `src/get_siib.py`      → section `GetSiib`

Python floats are modelled as `ℚ` (all arithmetic performed by the scripts on
CSV data is exact on rationals; square roots, which `numpy` takes at the very
end of a computation, are deferred to `Real.sqrt` inside theorem statements).
Fallible code is modelled with `Except`/`Option`.
-/

attribute [local semireducible] Rat.mul Rat.inv Rat.add Rat.sub

/-- Decidable equality of `Except` values, used to evaluate concrete runs of
the embedded scripts. -/
instance {ε α : Type} [DecidableEq ε] [DecidableEq α] : DecidableEq (Except ε α) := fun a b =>
  match a, b with
  | .ok x, .ok y =>
    if h : x = y then .isTrue (by rw [h]) else .isFalse (by intro hc; cases hc; exact h rfl)
  | .error x, .error y =>
    if h : x = y then .isTrue (by rw [h]) else .isFalse (by intro hc; cases hc; exact h rfl)
  | .ok _, .error _ => .isFalse (by intro hc; cases hc)
  | .error _, .ok _ => .isFalse (by intro hc; cases hc)

namespace CalKendall

/-- One data row of a `<t60>_mean_scores.csv` file as `pd.read_csv` with
`header=None, names=["rir","score","count"]` delivers it.  `score` is the
result of `pd.to_numeric(df["score"], errors="coerce")`: `none` models a cell
whose numeric coercion fails (`NaN`, subsequently dropped by
`dropna(subset=["score"])`).  The third CSV column (`count`) is read but never
used by the scripts; it is carried as raw text. -/
structure SRow where
  rir : String
  score : Option ℚ
  cnt : String
deriving DecidableEq

/-- A candidate file of a score folder, i.e. a directory entry whose name ends
in `_mean_scores.csv` (the listing on line 21 of `cal_kendall.py` discards all
other names before the loop starts, so only such files are modelled).
`t60 = none` models a file-level failure inside the `try` block — an
unparseable `<t60>` filename prefix (`float(...)` raises) or an unreadable
CSV (`pd.read_csv` raises) — which the source logs and skips. -/
structure SFile where
  t60 : Option ℚ
  rows : List SRow
deriving DecidableEq

/-- A row of the DataFrame produced by `load_scores`: columns t60, rir, score. -/
structure ScoreRecord where
  t60 : ℚ
  rir : String
  score : ℚ
deriving DecidableEq

/-- The range test on line 32: `t60_range and not (t60_range[0] <= t60 <= t60_range[1])`.
A `(lo, hi)` tuple is always truthy in Python, `None` is falsy, so filtering
happens exactly when a range is supplied. -/
def inT60Range (t60_range : Option (ℚ × ℚ)) (t : ℚ) : Bool :=
  match t60_range with
  | none => true
  | some (lo, hi) => decide (lo ≤ t) && decide (t ≤ hi)

/-- `load_scores` (cal_kendall.py lines 7–55).  For each candidate file:
parse the T60 from the filename (failure skips the file), skip files outside
the optional range, read the rows, coerce the score column to numeric and
drop rows where coercion failed, tag each surviving row with the file's T60,
and concatenate everything (an empty DataFrame results when nothing
qualifies). -/
def load_scores (folder : List SFile) (t60_range : Option (ℚ × ℚ)) : List ScoreRecord :=
  folder.flatMap fun f =>
    match f.t60 with
    | none => []
    | some t =>
      if inT60Range t60_range t then
        f.rows.filterMap fun r => r.score.map fun s => ⟨t, r.rir, s⟩
      else []

/-- A row of `pd.merge(scores1, scores2, on=["t60","rir"], suffixes=("_1","_2"))`. -/
structure MergedRow where
  t60 : ℚ
  rir : String
  score_1 : ℚ
  score_2 : ℚ
deriving DecidableEq

/-- The inner join on (t60, rir) performed by `pd.merge` on line 77: every row
of the left table is matched against every key-equal row of the right table,
in left-table order (pandas inner-merge order). -/
def merge (s1 s2 : List ScoreRecord) : List MergedRow :=
  s1.flatMap fun a =>
    (s2.filter fun b => decide (b.t60 = a.t60) && decide (b.rir = a.rir)).map
      fun b => ⟨a.t60, a.rir, a.score, b.score⟩

/-- The aligned score vectors `x = merged_df["score_1"]`, `y = merged_df["score_2"]`,
as the multiset of row-wise pairs (every statistic computed by the source is
invariant under the common row order, which the multiset quotients out). -/
def pairsOf (m : List MergedRow) : Multiset (ℚ × ℚ) :=
  ↑(m.map fun r => (r.score_1, r.score_2))

/-- `np.mean` of a vector (sum divided by length; `ℚ` division by zero is 0
where numpy would warn and produce NaN on an empty vector). -/
def mmean (s : Multiset ℚ) : ℚ :=
  s.sum / (Multiset.card s : ℚ)

/-- Pearson numerator Σ (xᵢ - x̄)(yᵢ - ȳ) of `scipy.stats.pearsonr`. -/
def sxy (M : Multiset (ℚ × ℚ)) : ℚ :=
  (M.map fun p => (p.1 - mmean (M.map Prod.fst)) * (p.2 - mmean (M.map Prod.snd))).sum

/-- Σ (xᵢ - x̄)² — the x part of the Pearson denominator. -/
def sxx (M : Multiset (ℚ × ℚ)) : ℚ :=
  (M.map fun p => (p.1 - mmean (M.map Prod.fst)) ^ 2).sum

/-- Σ (yᵢ - ȳ)² — the y part of the Pearson denominator. -/
def syy (M : Multiset (ℚ × ℚ)) : ℚ :=
  (M.map fun p => (p.2 - mmean (M.map Prod.snd)) ^ 2).sum

/-- `np.sign` on a rational. -/
def qsign (q : ℚ) : ℚ :=
  if 0 < q then 1 else if q < 0 then -1 else 0

/-- Twice the quantity `con_minus_dis` of `scipy.stats.kendalltau`: summing
`sign(xᵢ - xⱼ) · sign(yᵢ - yⱼ)` over all ordered index pairs counts every
unordered pair twice and the diagonal as zero. -/
def conDisSum (M : Multiset (ℚ × ℚ)) : ℚ :=
  ((M ×ˢ M).map fun pq => qsign (pq.1.1 - pq.2.1) * qsign (pq.1.2 - pq.2.2)).sum

/-- `minclasses` of `scipy.stats.kendalltau(variant="c")`: the smaller of the
numbers of distinct values in x and in y. -/
def minclasses (M : Multiset (ℚ × ℚ)) : ℕ :=
  min (M.map Prod.fst).toFinset.card (M.map Prod.snd).toFinset.card

/-- Kendall's tau-c as computed by `scipy.stats.kendalltau(x, y, variant="c")`:
`2 * con_minus_dis / (n**2 * (m - 1) / m)` with `m = minclasses`.
(`2 * con_minus_dis` is `conDisSum`; `ℚ` division by zero is 0 where scipy
produces NaN for `m = 1`, i.e. a constant vector.) -/
def kendall_tau_c (M : Multiset (ℚ × ℚ)) : ℚ :=
  conDisSum M / ((Multiset.card M : ℚ) ^ 2 * (((minclasses M : ℚ) - 1) / (minclasses M : ℚ)))

/-- `np.mean((x - y) ** 2)` — the value under the square root on line 96;
`rmse = np.sqrt` of this. -/
def mse (M : Multiset (ℚ × ℚ)) : ℚ :=
  (M.map fun p => (p.1 - p.2) ^ 2).sum / (Multiset.card M : ℚ)

/-- The dictionary returned by `calculate_folders_metrics`.  `pearson_num` and
`pearson_den` are the exact ingredients of `scipy.stats.pearsonr`:
the coefficient itself is `pearson_num / √pearson_den` (taken in `ℝ` inside
theorem statements).  `rmse_sq` is the value under `np.sqrt` on line 96, so the
reported RMSE is `√rmse_sq`.  The Kendall p-value (an approximation of the
sampling distribution computed inside scipy, exact-permutation or normal
depending on input) is not modelled. -/
structure MetricSummary where
  pearson_num : ℚ
  pearson_den : ℚ
  kendall : ℚ
  rmse_sq : ℚ
deriving DecidableEq

/-- The two errors `calculate_folders_metrics` can raise:
`emptyJoin` is the explicit `ValueError` on line 81 (spec name
`EmptyJoinError`); `insufficientData` is the `ValueError` that
`scipy.stats.pearsonr` raises on line 90 when the vectors have length < 2
(spec name `InsufficientDataError`). -/
inductive CmpError where
  | emptyJoin
  | insufficientData
deriving DecidableEq

/-- `calculate_folders_metrics` (cal_kendall.py lines 58–103): load both
folders with the same range, inner-join on (t60, rir), raise on an empty
join, then compute Pearson (which scipy aborts with a `ValueError` when
n < 2), Kendall's tau-c, and the RMSE over the aligned vectors. -/
def calculate_folders_metrics (folder1 folder2 : List SFile)
    (t60_range : Option (ℚ × ℚ)) : Except CmpError MetricSummary :=
  let scores1 := load_scores folder1 t60_range
  let scores2 := load_scores folder2 t60_range
  let merged_df := merge scores1 scores2
  if merged_df.isEmpty then
    .error .emptyJoin
  else if merged_df.length < 2 then
    .error .insufficientData
  else
    let M := pairsOf merged_df
    .ok { pearson_num := sxy M
          pearson_den := sxx M * syy M
          kendall := kendall_tau_c M
          rmse_sq := mse M }

/-- Every record emitted for a single file carries that file's T60. -/
lemma t60_of_mem_emitted {rows : List SRow} {t : ℚ} {rec : ScoreRecord}
    (h : rec ∈ rows.filterMap fun r => r.score.map fun s => (⟨t, r.rir, s⟩ : ScoreRecord)) :
    rec.t60 = t := by
  rcases List.mem_filterMap.mp h with ⟨r, _, hr⟩
  cases hs : r.score with
  | none => rw [hs] at hr; cases hr
  | some s => rw [hs] at hr; cases hr; rfl

/-- Loading with a T60 range equals loading everything and then keeping
exactly the records whose T60 passes the range test. -/
lemma load_scores_range_filter (folder : List SFile) (lo hi : ℚ) :
    load_scores folder (some (lo, hi)) =
      (load_scores folder none).filter fun rec => inT60Range (some (lo, hi)) rec.t60 := by
  induction folder with
  | nil => rfl
  | cons f fs ih =>
    simp only [load_scores, List.flatMap_cons, List.filter_append] at *
    rw [ih]
    congr 1
    cases ht : f.t60 with
    | none => rfl
    | some t =>
      simp only [inT60Range, if_true]
      by_cases hr : (decide (lo ≤ t) && decide (t ≤ hi)) = true
      · rw [if_pos hr]
        exact (List.filter_eq_self.mpr fun rec hrec => by
          rw [t60_of_mem_emitted hrec]; exact hr).symm
      · rw [if_neg hr]
        exact (List.filter_eq_nil_iff.mpr fun rec hrec => by
          rw [t60_of_mem_emitted hrec]; exact hr).symm

/-- The number of records emitted for one file is the number of its rows whose
score survives numeric coercion. -/
lemma length_emitted (rows : List SRow) (t : ℚ) :
    (rows.filterMap fun r => r.score.map fun s => (⟨t, r.rir, s⟩ : ScoreRecord)).length =
      rows.countP fun r => r.score.isSome := by
  induction rows with
  | nil => rfl
  | cons r rs ih =>
    cases hr : r.score <;>
      simp [List.filterMap_cons, List.countP_cons, hr, ih]

/-- On a well-formed folder (every filename T60 parses), the unfiltered load
keeps exactly the rows with a numeric score. -/
lemma load_scores_length_eq (folder : List SFile)
    (hwf : ∀ f ∈ folder, f.t60.isSome) :
    (load_scores folder none).length =
      ((folder.map fun f => f.rows.countP fun r => r.score.isSome).sum) := by
  induction folder with
  | nil => rfl
  | cons f fs ih =>
    have hf : f.t60.isSome := hwf f (List.mem_cons_self f fs)
    cases ht : f.t60 with
    | none => rw [ht] at hf; cases hf
    | some t =>
      simp only [load_scores, List.flatMap_cons, List.length_append, List.map_cons,
        List.sum_cons, ht, inT60Range, if_true]
      rw [length_emitted]
      exact congrArg _ (ih fun g hg => hwf g (List.mem_cons_of_mem f hg))

/-- The load never returns more records than the folder has CSV rows. -/
lemma load_scores_length_le (folder : List SFile) (t60_range : Option (ℚ × ℚ)) :
    (load_scores folder t60_range).length ≤ (folder.map fun f => f.rows.length).sum := by
  induction folder with
  | nil => simp [load_scores]
  | cons f fs ih =>
    simp only [load_scores, List.flatMap_cons, List.length_append, List.map_cons,
      List.sum_cons] at *
    refine Nat.add_le_add ?_ ih
    cases ht : f.t60 with
    | none => exact Nat.zero_le _
    | some t =>
      by_cases hr : inT60Range t60_range t
      · simpa [hr] using List.length_filterMap_le
          (fun r => r.score.map fun s => (⟨t, r.rir, s⟩ : ScoreRecord)) f.rows
      · simp [hr]

/-- When every file's T60 fails the range test, nothing is loaded. -/
lemma load_scores_empty_of_no_qualifying (folder : List SFile) (lo hi : ℚ)
    (h : ∀ f ∈ folder, ∀ t, f.t60 = some t → ¬(lo ≤ t ∧ t ≤ hi)) :
    load_scores folder (some (lo, hi)) = [] := by
  induction folder with
  | nil => rfl
  | cons f fs ih =>
    simp only [load_scores, List.flatMap_cons, List.append_eq_nil]
    constructor
    · cases ht : f.t60 with
      | none => rfl
      | some t =>
        have hout := h f (List.mem_cons_self f fs) t ht
        have hfalse : inT60Range (some (lo, hi)) t = false := by
          simp only [inT60Range, Bool.and_eq_false_iff, decide_eq_false_iff_not]
          rcases Decidable.em (lo ≤ t) with hlo | hlo
          · exact Or.inr fun hhi => hout ⟨hlo, hhi⟩
          · exact Or.inl hlo
        simp [hfalse]
    · exact ih fun g hg => h g (List.mem_cons_of_mem f hg)

/-- C1: `calculate_folders_metrics` raises `EmptyJoinError` (the `ValueError`
on line 81) if and only if the inner join of the two loaded tables on
(t60, rir) is empty; when the join is non-empty that error never occurs. -/
theorem calculate_folders_metrics_emptyJoin_iff
    (folder1 folder2 : List SFile) (t60_range : Option (ℚ × ℚ)) :
    calculate_folders_metrics folder1 folder2 t60_range = .error .emptyJoin ↔
      merge (load_scores folder1 t60_range) (load_scores folder2 t60_range) = [] := by
  unfold calculate_folders_metrics
  by_cases h : (merge (load_scores folder1 t60_range) (load_scores folder2 t60_range)).isEmpty
  · simp [h, List.isEmpty_iff.mp h]
  · have hne := fun h0 => h (List.isEmpty_iff.mpr h0)
    simp only [h, Bool.false_eq_true, if_false]
    constructor
    · intro hc
      split at hc
      · cases hc
      · cases hc
    · intro h0; exact absurd h0 hne

/-- C2 counterexample data: two folders with no common (t60, rir) key. -/
def folderP : List SFile := [⟨some (1/2), [⟨"mic1", some (4/5), "10"⟩]⟩]

/-- C2 counterexample data: shares no (t60, rir) key with `folderP`. -/
def folderQ : List SFile := [⟨some (7/10), [⟨"mic1", some (3/5), "10"⟩]⟩]

/-- C2 counterexample: a join with fewer than 2 paired samples (here n = 0)
does not fail with `InsufficientDataError`: the empty join raises
`EmptyJoinError` instead, refuting the claim for n = 0. -/
theorem small_join_not_insufficientData :
    (merge (load_scores folderP none) (load_scores folderQ none)).length < 2 ∧
      calculate_folders_metrics folderP folderQ none ≠
        Except.error CmpError.insufficientData ∧
      calculate_folders_metrics folderP folderQ none =
        Except.error CmpError.emptyJoin := by
  decide

/-- C2 (amended): when the inner join is non-empty but holds fewer than 2
paired samples (i.e. exactly one), `calculate_folders_metrics` fails with
`InsufficientDataError` (scipy's length check inside `pearsonr`) rather than
returning a `MetricSummary`. -/
theorem single_pair_insufficientData
    (folder1 folder2 : List SFile) (t60_range : Option (ℚ × ℚ))
    (h : (merge (load_scores folder1 t60_range) (load_scores folder2 t60_range)).length = 1) :
    calculate_folders_metrics folder1 folder2 t60_range = .error .insufficientData := by
  unfold calculate_folders_metrics
  have hne : (merge (load_scores folder1 t60_range) (load_scores folder2 t60_range)).isEmpty = false := by
    rcases hm : merge (load_scores folder1 t60_range) (load_scores folder2 t60_range) with _ | ⟨a, l⟩
    · rw [hm] at h; cases h
    · rfl
  simp [hne, h]

/-- C2 amended-claim data: one common (t60, rir) key with `folderT`. -/
def folderR : List SFile := [⟨some (1/2), [⟨"mic1", some (4/5), "10"⟩]⟩]

/-- C2 amended-claim data: one common (t60, rir) key with `folderR`. -/
def folderT : List SFile := [⟨some (1/2), [⟨"mic1", some (3/5), "10"⟩]⟩]

/-- C2 witness: concrete folders with exactly one paired sample fail with
`InsufficientDataError`. -/
theorem single_pair_insufficientData_witness :
    (merge (load_scores folderR none) (load_scores folderT none)).length = 1 ∧
      calculate_folders_metrics folderR folderT none = .error .insufficientData :=
  ⟨by decide, single_pair_insufficientData folderR folderT none (by decide)⟩

/-- C3: on a well-formed folder, `load_scores` returns exactly the rows whose
T60 passes the (inclusive) range test — all rows when the range is unset —
minus the rows whose score fails numeric coercion; the result never exceeds
the input row count, and an empty selection yields an empty table, not an
error. -/
theorem load_scores_exact (folder : List SFile) (lo hi : ℚ)
    (hwf : ∀ f ∈ folder, f.t60.isSome) :
    load_scores folder (some (lo, hi)) =
        ((load_scores folder none).filter fun rec => inT60Range (some (lo, hi)) rec.t60) ∧
      (load_scores folder none).length =
        ((folder.map fun f => f.rows.countP fun r => r.score.isSome).sum) ∧
      (load_scores folder (some (lo, hi))).length ≤ (folder.map fun f => f.rows.length).sum ∧
      ((∀ f ∈ folder, ∀ t, f.t60 = some t → ¬(lo ≤ t ∧ t ≤ hi)) →
        load_scores folder (some (lo, hi)) = []) :=
  ⟨load_scores_range_filter folder lo hi,
   load_scores_length_eq folder hwf,
   load_scores_length_le folder (some (lo, hi)),
   load_scores_empty_of_no_qualifying folder lo hi⟩

/-- C3 witness data: a well-formed two-file folder with one coercion-failing
row. -/
def folderW : List SFile :=
  [⟨some 1, [⟨"a", some 1, "5"⟩, ⟨"b", none, "5"⟩]⟩,
   ⟨some 3, [⟨"c", some 2, "5"⟩]⟩]

/-- C3 witness: the well-formedness hypothesis holds of `folderW` and the
range-selection conclusions follow for the range [0, 2]. -/
theorem load_scores_exact_witness :
    (∀ f ∈ folderW, f.t60.isSome) ∧
      (load_scores folderW (some (0, 2)) =
          ((load_scores folderW none).filter fun rec =>
            inT60Range (some (0, 2)) rec.t60) ∧
        (load_scores folderW none).length =
          ((folderW.map fun f => f.rows.countP fun r => r.score.isSome).sum) ∧
        (load_scores folderW (some (0, 2))).length ≤
          (folderW.map fun f => f.rows.length).sum ∧
        ((∀ f ∈ folderW, ∀ t, f.t60 = some t → ¬((0:ℚ) ≤ t ∧ t ≤ 2)) →
          load_scores folderW (some (0, 2)) = [])) :=
  ⟨by decide, load_scores_exact folderW 0 2 (by decide)⟩

/-- A filtered-and-mapped list, as a multiset, is a bind into conditional
singletons. -/
lemma coe_filter_map_eq_bind {α β : Type} (l : List α) (p : α → Prop) [DecidablePred p]
    (g : α → β) :
    (↑((l.filter fun x => decide (p x)).map g) : Multiset β) =
      (↑l : Multiset α).bind fun x => if p x then {g x} else 0 := by
  induction l with
  | nil => rfl
  | cons x xs ih =>
    rw [← Multiset.cons_coe, Multiset.cons_bind, ← ih]
    by_cases hx : p x <;> simp [List.filter_cons, hx, Multiset.cons_coe]

/-- The joined score pairs, written as a double bind over the two loaded
tables. -/
lemma pairsOf_merge (s1 s2 : List ScoreRecord) :
    pairsOf (merge s1 s2) =
      (↑s1 : Multiset ScoreRecord).bind fun a =>
        (↑s2 : Multiset ScoreRecord).bind fun b =>
          if b.t60 = a.t60 ∧ b.rir = a.rir then {(a.score, b.score)} else 0 := by
  unfold pairsOf merge
  rw [List.map_flatMap]
  rw [← Multiset.coe_bind]
  apply Multiset.bind_congr
  intro a _
  rw [List.map_map]
  have hrw : (s2.filter fun b => decide (b.t60 = a.t60) && decide (b.rir = a.rir)) =
      s2.filter fun b => decide (b.t60 = a.t60 ∧ b.rir = a.rir) := by
    apply List.filter_congr
    intro b _
    simp
  rw [hrw, coe_filter_map_eq_bind s2 (fun b => b.t60 = a.t60 ∧ b.rir = a.rir)]
  rfl

/-- Swapping the two folders turns the multiset of joined score pairs into
its element-wise swap. -/
lemma pairsOf_merge_swap (s1 s2 : List ScoreRecord) :
    pairsOf (merge s2 s1) = (pairsOf (merge s1 s2)).map Prod.swap := by
  rw [pairsOf_merge, pairsOf_merge]
  rw [Multiset.bind_bind (↑s2 : Multiset ScoreRecord) (↑s1 : Multiset ScoreRecord)]
  rw [Multiset.map_bind]
  apply Multiset.bind_congr
  intro b _
  rw [Multiset.map_bind]
  apply Multiset.bind_congr
  intro a _
  rcases Decidable.em (b.t60 = a.t60 ∧ b.rir = a.rir) with h | h
  · have h2 : a.t60 = b.t60 ∧ a.rir = b.rir := ⟨h.1.symm, h.2.symm⟩
    rw [if_pos h, if_pos h2, Multiset.map_singleton]
    rfl
  · have h2 : ¬(a.t60 = b.t60 ∧ a.rir = b.rir) := fun hc => h ⟨hc.1.symm, hc.2.symm⟩
    rw [if_neg h, if_neg h2, Multiset.map_zero]

/-- The firsts of the swapped pairs are the seconds of the originals. -/
lemma map_swap_fst (M : Multiset (ℚ × ℚ)) :
    (M.map Prod.swap).map Prod.fst = M.map Prod.snd := by
  rw [Multiset.map_map]; rfl

/-- The seconds of the swapped pairs are the firsts of the originals. -/
lemma map_swap_snd (M : Multiset (ℚ × ℚ)) :
    (M.map Prod.swap).map Prod.snd = M.map Prod.fst := by
  rw [Multiset.map_map]; rfl

/-- The Pearson numerator is symmetric under swapping x and y. -/
lemma sxy_swap (M : Multiset (ℚ × ℚ)) : sxy (M.map Prod.swap) = sxy M := by
  unfold sxy
  rw [map_swap_fst, map_swap_snd, Multiset.map_map]
  exact congrArg Multiset.sum (Multiset.map_congr rfl fun p _ => mul_comm _ _)

/-- Swapping x and y exchanges the two denominator sums. -/
lemma sxx_swap (M : Multiset (ℚ × ℚ)) : sxx (M.map Prod.swap) = syy M := by
  unfold sxx syy
  rw [map_swap_fst, Multiset.map_map]
  rfl

/-- Swapping x and y exchanges the two denominator sums. -/
lemma syy_swap (M : Multiset (ℚ × ℚ)) : syy (M.map Prod.swap) = sxx M := by
  unfold sxx syy
  rw [map_swap_snd, Multiset.map_map]
  rfl

/-- A product of two mapped multisets is the mapped product. -/
lemma product_map_map {α β : Type} (f : α → β) (s t : Multiset α) :
    (s.map f) ×ˢ (t.map f) = (s ×ˢ t).map (Prod.map f f) := by
  show Multiset.product (s.map f) (t.map f) = Multiset.map (Prod.map f f) (Multiset.product s t)
  unfold Multiset.product
  rw [Multiset.bind_map, Multiset.map_bind]
  apply Multiset.bind_congr
  intro a _
  rw [Multiset.map_map, Multiset.map_map]
  rfl

/-- The concordant-discordant sum is symmetric under swapping x and y. -/
lemma conDisSum_swap (M : Multiset (ℚ × ℚ)) : conDisSum (M.map Prod.swap) = conDisSum M := by
  unfold conDisSum
  rw [product_map_map, Multiset.map_map]
  exact congrArg Multiset.sum (Multiset.map_congr rfl fun pq _ => mul_comm _ _)

/-- The minimum class count is symmetric under swapping x and y. -/
lemma minclasses_swap (M : Multiset (ℚ × ℚ)) : minclasses (M.map Prod.swap) = minclasses M := by
  unfold minclasses
  rw [map_swap_fst, map_swap_snd, Nat.min_comm]

/-- Kendall's tau-c is symmetric under swapping x and y. -/
lemma kendall_tau_c_swap (M : Multiset (ℚ × ℚ)) :
    kendall_tau_c (M.map Prod.swap) = kendall_tau_c M := by
  unfold kendall_tau_c
  rw [conDisSum_swap, minclasses_swap, Multiset.card_map]

/-- The mean squared error is symmetric under swapping x and y. -/
lemma mse_swap (M : Multiset (ℚ × ℚ)) : mse (M.map Prod.swap) = mse M := by
  unfold mse
  rw [Multiset.card_map, Multiset.map_map]
  congr 1
  exact congrArg Multiset.sum (Multiset.map_congr rfl fun p _ => by
    show (p.2 - p.1) ^ 2 = (p.1 - p.2) ^ 2
    rw [← neg_sub, neg_sq])

/-- Unpacking a successful run of `calculate_folders_metrics`. -/
lemma calculate_ok_elim {folder1 folder2 : List SFile} {t60_range : Option (ℚ × ℚ)}
    {ms : MetricSummary}
    (h : calculate_folders_metrics folder1 folder2 t60_range = .ok ms) :
    2 ≤ (merge (load_scores folder1 t60_range) (load_scores folder2 t60_range)).length ∧
      ms = { pearson_num := sxy (pairsOf (merge (load_scores folder1 t60_range) (load_scores folder2 t60_range)))
             pearson_den := sxx (pairsOf (merge (load_scores folder1 t60_range) (load_scores folder2 t60_range))) *
               syy (pairsOf (merge (load_scores folder1 t60_range) (load_scores folder2 t60_range)))
             kendall := kendall_tau_c (pairsOf (merge (load_scores folder1 t60_range) (load_scores folder2 t60_range)))
             rmse_sq := mse (pairsOf (merge (load_scores folder1 t60_range) (load_scores folder2 t60_range))) } := by
  simp only [calculate_folders_metrics] at h
  split at h
  · cases h
  · split at h
    · cases h
    · rename_i hlen
      exact ⟨Nat.le_of_not_lt hlen, (Except.ok.inj h).symm⟩

/-- C5: the comparison is symmetric in its two folder arguments — swapping
them leaves the RMSE, the Pearson ingredients (hence the Pearson
coefficient num/√den), and Kendall's tau-c unchanged. -/
theorem calculate_folders_metrics_symm (folder1 folder2 : List SFile)
    (t60_range : Option (ℚ × ℚ)) (m12 m21 : MetricSummary)
    (h12 : calculate_folders_metrics folder1 folder2 t60_range = .ok m12)
    (h21 : calculate_folders_metrics folder2 folder1 t60_range = .ok m21) :
    Real.sqrt (m12.rmse_sq : ℝ) = Real.sqrt (m21.rmse_sq : ℝ) ∧
      m12.pearson_num = m21.pearson_num ∧
      m12.pearson_den = m21.pearson_den ∧
      (m12.pearson_num : ℝ) / Real.sqrt (m12.pearson_den : ℝ) =
        (m21.pearson_num : ℝ) / Real.sqrt (m21.pearson_den : ℝ) ∧
      m12.kendall = m21.kendall := by
  obtain ⟨-, h12eq⟩ := calculate_ok_elim h12
  obtain ⟨-, h21eq⟩ := calculate_ok_elim h21
  subst h12eq
  subst h21eq
  set M := pairsOf (merge (load_scores folder1 t60_range) (load_scores folder2 t60_range)) with hM
  have hswap : pairsOf (merge (load_scores folder2 t60_range) (load_scores folder1 t60_range)) =
      M.map Prod.swap := by
    rw [hM]; exact pairsOf_merge_swap _ _
  simp [hswap, mse_swap, sxy_swap, sxx_swap, syy_swap, kendall_tau_c_swap,
    mul_comm (syy M) (sxx M)]

/-- With unique (t60, rir) keys, a record of `s` matches exactly itself in the
self-join. -/
lemma bind_self_key_singleton {s : List ScoreRecord} {a : ScoreRecord}
    (h : (s.map fun c => (c.t60, c.rir)).Nodup) (ha : a ∈ s) :
    ((↑s : Multiset ScoreRecord).bind fun b =>
        if b.t60 = a.t60 ∧ b.rir = a.rir then ({(a.score, b.score)} : Multiset (ℚ × ℚ)) else 0) =
      {(a.score, a.score)} := by
  induction s with
  | nil => cases ha
  | cons x xs ih =>
    rw [List.map_cons] at h
    have hx : (x.t60, x.rir) ∉ xs.map fun c => (c.t60, c.rir) := (List.nodup_cons.mp h).1
    have hxs : (xs.map fun c => (c.t60, c.rir)).Nodup := (List.nodup_cons.mp h).2
    rw [← Multiset.cons_coe, Multiset.cons_bind]
    rcases List.mem_cons.mp ha with rfl | haxs
    · rw [if_pos ⟨rfl, rfl⟩]
      have hall : ∀ b ∈ (↑xs : Multiset ScoreRecord),
          (if b.t60 = a.t60 ∧ b.rir = a.rir then ({(a.score, b.score)} : Multiset (ℚ × ℚ)) else 0) = 0 := by
        intro b hb
        rw [if_neg]
        rintro ⟨h1, h2⟩
        exact hx (List.mem_map.mpr ⟨b, Multiset.mem_coe.mp hb, by rw [h1, h2]⟩)
      rw [Multiset.bind_congr hall, Multiset.bind_zero, add_zero]
    · have hane : ¬(x.t60 = a.t60 ∧ x.rir = a.rir) := by
        rintro ⟨h1, h2⟩
        exact hx (List.mem_map.mpr ⟨a, haxs, by rw [h1, h2]⟩)
      rw [if_neg hane, ih hxs haxs, zero_add]

/-- With unique (t60, rir) keys, the self-join pairs each score with itself. -/
lemma pairsOf_merge_self {s : List ScoreRecord}
    (h : (s.map fun c => (c.t60, c.rir)).Nodup) :
    pairsOf (merge s s) = (↑s : Multiset ScoreRecord).map fun a => (a.score, a.score) := by
  rw [pairsOf_merge]
  calc (↑s : Multiset ScoreRecord).bind (fun a => (↑s : Multiset ScoreRecord).bind fun b =>
          if b.t60 = a.t60 ∧ b.rir = a.rir then {(a.score, b.score)} else 0)
      = (↑s : Multiset ScoreRecord).bind fun a => ({(a.score, a.score)} : Multiset (ℚ × ℚ)) :=
        Multiset.bind_congr fun a ha => bind_self_key_singleton h (Multiset.mem_coe.mp ha)
    _ = _ := by simp

/-- Firsts of the diagonal multiset. -/
lemma map_dia_fst (X : Multiset ℚ) : ((X.map fun x => (x, x)).map Prod.fst) = X := by
  rw [Multiset.map_map]
  exact Multiset.map_id' X

/-- Seconds of the diagonal multiset. -/
lemma map_dia_snd (X : Multiset ℚ) : ((X.map fun x => (x, x)).map Prod.snd) = X := by
  rw [Multiset.map_map]
  exact Multiset.map_id' X

/-- On identical vectors all three Pearson sums coincide. -/
lemma sxy_dia (X : Multiset ℚ) :
    sxy (X.map fun x => (x, x)) = (X.map fun x => (x - mmean X) ^ 2).sum := by
  unfold sxy
  rw [map_dia_fst, map_dia_snd, Multiset.map_map]
  exact congrArg Multiset.sum (Multiset.map_congr rfl fun x _ => (sq (x - mmean X)).symm)

/-- On identical vectors all three Pearson sums coincide. -/
lemma sxx_dia (X : Multiset ℚ) :
    sxx (X.map fun x => (x, x)) = (X.map fun x => (x - mmean X) ^ 2).sum := by
  unfold sxx
  rw [map_dia_fst, Multiset.map_map]
  rfl

/-- On identical vectors all three Pearson sums coincide. -/
lemma syy_dia (X : Multiset ℚ) :
    syy (X.map fun x => (x, x)) = (X.map fun x => (x - mmean X) ^ 2).sum := by
  unfold syy
  rw [map_dia_snd, Multiset.map_map]
  rfl

/-- The mean squared error of identical vectors vanishes. -/
lemma mse_dia (X : Multiset ℚ) : mse (X.map fun x => (x, x)) = 0 := by
  unfold mse
  rw [Multiset.map_map]
  have hall : ∀ x ∈ X, ((fun p : ℚ × ℚ => (p.1 - p.2) ^ 2) ∘ fun x => (x, x)) x = (0:ℚ) := by
    intro x _
    show (x - x) ^ 2 = 0
    rw [sub_self]
    exact zero_pow (by norm_num)
  rw [Multiset.map_congr rfl hall, Multiset.map_const', Multiset.sum_replicate, smul_zero,
    zero_div]

/-- A centered sum of squares over a multiset containing two distinct values
is strictly positive. -/
lemma sum_centered_sq_pos {X : Multiset ℚ} {a b : ℚ} (ha : a ∈ X) (hb : b ∈ X)
    (hab : a ≠ b) (μ : ℚ) :
    0 < (X.map fun x => (x - μ) ^ 2).sum := by
  obtain ⟨X1, rfl⟩ := Multiset.exists_cons_of_mem ha
  have hb1 : b ∈ X1 := by
    rcases Multiset.mem_cons.mp hb with h | h
    · exact absurd h.symm hab
    · exact h
  obtain ⟨X2, rfl⟩ := Multiset.exists_cons_of_mem hb1
  rw [Multiset.map_cons, Multiset.map_cons, Multiset.sum_cons, Multiset.sum_cons]
  have hrest : 0 ≤ (X2.map fun x => (x - μ) ^ 2).sum :=
    Multiset.sum_nonneg fun q hq => by
      obtain ⟨x, -, rfl⟩ := Multiset.mem_map.mp hq
      exact sq_nonneg _
  rcases eq_or_ne a μ with rfl | hne
  · have hbne : b - a ≠ 0 := sub_ne_zero.mpr (fun hc => hab hc.symm)
    have hbpos : 0 < (b - a) ^ 2 := lt_of_le_of_ne (sq_nonneg _) (Ne.symm (pow_ne_zero 2 hbne))
    have haz : (a - a) ^ 2 = 0 := by rw [sub_self]; exact zero_pow (by norm_num)
    linarith
  · have hane : a - μ ≠ 0 := sub_ne_zero.mpr hne
    have hapos : 0 < (a - μ) ^ 2 := lt_of_le_of_ne (sq_nonneg _) (Ne.symm (pow_ne_zero 2 hane))
    have hbnn : 0 ≤ (b - μ) ^ 2 := sq_nonneg _
    linarith

/-- A sum over a product multiset is an iterated sum. -/
lemma sum_map_product_eq {α : Type} (s t : Multiset α) (f : α → α → ℚ) :
    ((s ×ˢ t).map fun uv => f uv.1 uv.2).sum = (s.map fun u => (t.map fun v => f u v).sum).sum := by
  refine Multiset.induction_on s (by simp) fun a s ih => ?_
  simp [Multiset.map_map, ih]

/-- The square of `np.sign` is the indicator of being non-zero. -/
lemma qsign_mul_self (q : ℚ) : qsign q * qsign q = if q = 0 then 0 else 1 := by
  rcases lt_trichotomy 0 q with h | h | h
  · have h0 : q ≠ 0 := ne_of_gt h
    rw [qsign, if_pos h, if_neg h0]
    norm_num
  · rw [← h]
    norm_num [qsign]
  · have h0 : q ≠ 0 := ne_of_lt h
    have hn : ¬0 < q := by linarith
    rw [qsign, if_neg hn, if_pos h, if_neg h0]
    norm_num

/-- Summing the off-diagonal indicator against a fixed member of a duplicate-free
multiset counts everything but that member. -/
lemma sum_indicator_ne {X : Multiset ℚ} {u : ℚ} (hnd : X.Nodup) (hu : u ∈ X) :
    (X.map fun v => if u = v then (0:ℚ) else 1).sum = (Multiset.card X : ℚ) - 1 := by
  obtain ⟨X1, rfl⟩ := Multiset.exists_cons_of_mem hu
  have hnotmem : u ∉ X1 := (Multiset.nodup_cons.mp hnd).1
  rw [Multiset.map_cons, Multiset.sum_cons, if_pos rfl, zero_add]
  have hall : ∀ v ∈ X1, (if u = v then (0:ℚ) else 1) = (1:ℚ) := fun v hv =>
    if_neg fun he => hnotmem (by rw [he]; exact hv)
  rw [Multiset.map_congr rfl hall, Multiset.map_const', Multiset.sum_replicate,
    Multiset.card_cons, nsmul_eq_mul]
  push_cast
  ring

/-- The concordant-discordant sum of a duplicate-free identical pair of
vectors counts the ordered non-equal pairs: n² - n. -/
lemma conDisSum_dia {X : Multiset ℚ} (hnd : X.Nodup) :
    conDisSum (X.map fun x => (x, x)) =
      (Multiset.card X : ℚ) ^ 2 - (Multiset.card X : ℚ) := by
  unfold conDisSum
  rw [product_map_map, Multiset.map_map]
  have h1 : ∀ uv ∈ X ×ˢ X,
      ((fun pq : (ℚ × ℚ) × ℚ × ℚ => qsign (pq.1.1 - pq.2.1) * qsign (pq.1.2 - pq.2.2)) ∘
        Prod.map (fun x => (x, x)) fun x => (x, x)) uv =
      (if uv.1 = uv.2 then (0:ℚ) else 1) := by
    intro uv _
    show qsign (uv.1 - uv.2) * qsign (uv.1 - uv.2) = _
    rw [qsign_mul_self]
    simp [sub_eq_zero]
  rw [Multiset.map_congr rfl h1,
    sum_map_product_eq X X fun u v => if u = v then (0:ℚ) else 1,
    Multiset.map_congr rfl fun u hu => sum_indicator_ne hnd hu,
    Multiset.map_const', Multiset.sum_replicate, nsmul_eq_mul]
  ring

/-- Both coordinates of a duplicate-free diagonal multiset have exactly n
distinct values. -/
lemma minclasses_dia {X : Multiset ℚ} (hnd : X.Nodup) :
    minclasses (X.map fun x => (x, x)) = Multiset.card X := by
  unfold minclasses
  rw [map_dia_fst, map_dia_snd, min_self, Multiset.toFinset_card_of_nodup hnd]

/-- A duplicate-free multiset with at least two members holds two distinct
values. -/
lemma exists_two_distinct {X : Multiset ℚ} (hnd : X.Nodup) (hcard : 2 ≤ Multiset.card X) :
    ∃ a ∈ X, ∃ b ∈ X, a ≠ b := by
  obtain ⟨a, ha⟩ := Multiset.card_pos_iff_exists_mem.mp (lt_of_lt_of_le Nat.zero_lt_two hcard)
  obtain ⟨X1, rfl⟩ := Multiset.exists_cons_of_mem ha
  have hpos1 : 0 < Multiset.card X1 := by
    rw [Multiset.card_cons] at hcard
    omega
  obtain ⟨b, hb⟩ := Multiset.card_pos_iff_exists_mem.mp hpos1
  have hane : a ∉ X1 := (Multiset.nodup_cons.mp hnd).1
  exact ⟨a, Multiset.mem_cons_self a X1, b, Multiset.mem_cons_of_mem hb,
    fun hc => hane (hc ▸ hb)⟩

/-- Kendall's tau-c of a duplicate-free vector against itself is exactly 1
once n ≥ 2. -/
lemma kendall_tau_c_dia {X : Multiset ℚ} (hnd : X.Nodup) (hcard : 2 ≤ Multiset.card X) :
    kendall_tau_c (X.map fun x => (x, x)) = 1 := by
  unfold kendall_tau_c
  rw [conDisSum_dia hnd, minclasses_dia hnd, Multiset.card_map]
  have hn : (2:ℚ) ≤ (Multiset.card X : ℚ) := by exact_mod_cast hcard
  have hn0 : (Multiset.card X : ℚ) ≠ 0 := by linarith
  have hn1 : (Multiset.card X : ℚ) - 1 ≠ 0 := by
    intro h
    have : (Multiset.card X : ℚ) = 1 := by linarith
    linarith
  rw [div_eq_one_iff_eq]
  · field_simp
    ring
  · intro h
    apply hn1
    have h2 : (Multiset.card X : ℚ) ^ 2 * (((Multiset.card X : ℚ) - 1) / (Multiset.card X : ℚ)) =
        (Multiset.card X : ℚ) * ((Multiset.card X : ℚ) - 1) := by
      field_simp
      ring
    rw [h2] at h
    rcases mul_eq_zero.mp h with h3 | h3
    · exact absurd h3 hn0
    · exact h3

/-- C4 (amended): comparing a folder with itself, when every loaded (t60, rir)
key is unique and all loaded scores are pairwise distinct, yields Pearson
num/√den = 1, Kendall tau-c = 1, and RMSE = √(mean squared error) = 0. -/
theorem calculate_self_perfect (folder : List SFile) (t60_range : Option (ℚ × ℚ))
    (ms : MetricSummary)
    (hkeys : ((load_scores folder t60_range).map fun a => (a.t60, a.rir)).Nodup)
    (hscores : ((load_scores folder t60_range).map fun a => a.score).Nodup)
    (hok : calculate_folders_metrics folder folder t60_range = .ok ms) :
    (ms.pearson_num : ℝ) / Real.sqrt (ms.pearson_den : ℝ) = 1 ∧
      ms.kendall = 1 ∧ Real.sqrt (ms.rmse_sq : ℝ) = 0 := by
  obtain ⟨hlen, hmseq⟩ := calculate_ok_elim hok
  subst hmseq
  have hdiag : pairsOf (merge (load_scores folder t60_range) (load_scores folder t60_range)) =
      ((↑(load_scores folder t60_range) : Multiset ScoreRecord).map fun a => a.score).map
        fun x => (x, x) := by
    rw [pairsOf_merge_self hkeys, Multiset.map_map]
    rfl
  set X : Multiset ℚ :=
    (↑(load_scores folder t60_range) : Multiset ScoreRecord).map fun a => a.score with hX
  have hnd : X.Nodup := by
    rw [hX]
    exact Multiset.coe_nodup.mpr hscores
  have hcard : 2 ≤ Multiset.card X := by
    have hc : Multiset.card (pairsOf
        (merge (load_scores folder t60_range) (load_scores folder t60_range))) =
        (merge (load_scores folder t60_range) (load_scores folder t60_range)).length := by
      unfold pairsOf
      rw [Multiset.coe_card, List.length_map]
    rw [hdiag, Multiset.card_map] at hc
    rw [hc]
    exact hlen
  obtain ⟨a, ha, b, hb, hab⟩ := exists_two_distinct hnd hcard
  have hS : 0 < (X.map fun x => (x - mmean X) ^ 2).sum := sum_centered_sq_pos ha hb hab _
  constructor
  · show ((sxy (pairsOf _) : ℚ) : ℝ) / Real.sqrt ((sxx (pairsOf _) * syy (pairsOf _) : ℚ) : ℝ) = 1
    rw [hdiag, sxy_dia, sxx_dia, syy_dia]
    set S : ℚ := (X.map fun x => (x - mmean X) ^ 2).sum with hSdef
    have hcast : ((S * S : ℚ) : ℝ) = (S : ℝ) * (S : ℝ) := by push_cast; ring
    rw [hcast, Real.sqrt_mul_self (by exact_mod_cast le_of_lt hS)]
    have hS0 : (S : ℝ) ≠ 0 := by
      exact_mod_cast ne_of_gt hS
    exact div_self hS0
  constructor
  · show kendall_tau_c (pairsOf _) = 1
    rw [hdiag]
    exact kendall_tau_c_dia hnd hcard
  · show Real.sqrt ((mse (pairsOf _) : ℚ) : ℝ) = 0
    rw [hdiag, mse_dia]
    rw [Rat.cast_zero, Real.sqrt_zero]

/-- C4 counterexample data: a well-keyed folder whose scores contain a tie
(x = y = [1, 2, 2]). -/
def ftie : List SFile :=
  [⟨some 1, [⟨"a", some 1, "5"⟩, ⟨"b", some 2, "5"⟩, ⟨"c", some 2, "5"⟩]⟩]

/-- C4 counterexample data: a folder with a duplicated (t60, rir) key carrying
two different scores. -/
def fdup : List SFile :=
  [⟨some 1, [⟨"m", some 1, "5"⟩, ⟨"m", some 2, "5"⟩]⟩]

/-- C4 counterexample: self-comparison does not always yield Kendall = 1 and
RMSE = 0.  With tied scores the self-comparison succeeds with tau-c = 8/9 ≠ 1,
and with a duplicated (t60, rir) key the join inflates and the reported RMSE
is √(1/2) ≠ 0. -/
theorem calculate_self_not_perfect :
    (calculate_folders_metrics ftie ftie none =
        .ok { pearson_num := 2/3, pearson_den := 4/9, kendall := 8/9, rmse_sq := 0 } ∧
      (8:ℚ)/9 ≠ 1) ∧
    (calculate_folders_metrics fdup fdup none =
        .ok { pearson_num := 0, pearson_den := 1, kendall := 0, rmse_sq := 1/2 } ∧
      Real.sqrt (((1:ℚ)/2 : ℚ) : ℝ) ≠ 0) := by
  refine ⟨⟨by decide, by decide⟩, ⟨by decide, ?_⟩⟩
  rw [Real.sqrt_ne_zero']
  rw [show (((1:ℚ)/2 : ℚ) : ℝ) = (1:ℝ)/2 by push_cast; ring]
  norm_num

/-- C4 witness data: unique keys, distinct scores. -/
def fgood : List SFile := [⟨some 1, [⟨"a", some 4, "5"⟩, ⟨"b", some 6, "5"⟩]⟩]

/-- C4 witness: the amended self-comparison claim, instantiated on a concrete
folder with unique keys and distinct scores. -/
theorem calculate_self_perfect_witness :
    (((load_scores fgood none).map fun a => (a.t60, a.rir)).Nodup ∧
      ((load_scores fgood none).map fun a => a.score).Nodup ∧
      calculate_folders_metrics fgood fgood none =
        .ok { pearson_num := 2, pearson_den := 4, kendall := 1, rmse_sq := 0 }) ∧
    (((2:ℚ) : ℝ) / Real.sqrt (((4:ℚ) : ℝ)) = 1 ∧
      ((1:ℚ) = 1) ∧ Real.sqrt (((0:ℚ) : ℝ)) = 0) := by
  refine ⟨⟨by decide, by decide, by decide⟩, ?_⟩
  have h := calculate_self_perfect fgood none
    { pearson_num := 2, pearson_den := 4, kendall := 1, rmse_sq := 0 }
    (by decide) (by decide) (by decide)
  exact ⟨h.1, ⟨h.2.1, h.2.2⟩⟩

/-- C5 witness data: the spec's concrete scenario, folder A. -/
def folderA : List SFile :=
  [⟨some (1/2), [⟨"mic1", some (4/5), "10"⟩, ⟨"mic2", some (3/5), "10"⟩]⟩]

/-- C5 witness data: the spec's concrete scenario, folder B. -/
def folderB : List SFile :=
  [⟨some (1/2), [⟨"mic1", some (9/10), "10"⟩, ⟨"mic2", some (1/2), "10"⟩]⟩]

/-- The `MetricSummary` of comparing `folderA` with `folderB` (either way
round). -/
def msAB : MetricSummary :=
  { pearson_num := 1/25, pearson_den := 1/625, kendall := 1, rmse_sq := 1/100 }

/-- C5 witness: both comparison directions succeed on the concrete folders and
the symmetry conclusions follow. -/
theorem calculate_folders_metrics_symm_witness :
    (calculate_folders_metrics folderA folderB none = .ok msAB ∧
      calculate_folders_metrics folderB folderA none = .ok msAB) ∧
      (Real.sqrt (msAB.rmse_sq : ℝ) = Real.sqrt (msAB.rmse_sq : ℝ) ∧
        msAB.pearson_num = msAB.pearson_num ∧
        msAB.pearson_den = msAB.pearson_den ∧
        (msAB.pearson_num : ℝ) / Real.sqrt (msAB.pearson_den : ℝ) =
          (msAB.pearson_num : ℝ) / Real.sqrt (msAB.pearson_den : ℝ) ∧
        msAB.kendall = msAB.kendall) :=
  ⟨⟨by decide, by decide⟩,
    calculate_folders_metrics_symm folderA folderB none msAB msAB (by decide) (by decide)⟩

end CalKendall

namespace VarianceTest

/-- A candidate `_mean_scores.csv` directory entry for `variance_test.py`
(only names ending in `_mean_scores.csv` reach the body of the loop).  The
CSV is read with its header (`pd.read_csv(file_path)`) and the `mean_score`
column is taken as-is (`df["mean_score"].tolist()`), without numeric
coercion: a cell is `some q` when pandas parsed it as a number and `none`
when it stayed a non-numeric object (a string).  `t60 = none` models an
unparseable `<t60>` filename prefix and `mean_scores = none` an unreadable
file or a missing `mean_score` column (a `KeyError`); every such failure is
caught by the `try`, logged, and skips the file. -/
structure VFile where
  t60 : Option ℚ
  mean_scores : Option (List (Option ℚ))

/-- Python-dict insertion: overwrite an existing key in place, else append. -/
def dictInsert (d : List (ℚ × List (Option ℚ))) (t : ℚ) (v : List (Option ℚ)) :
    List (ℚ × List (Option ℚ)) :=
  if d.any fun kv => decide (kv.1 = t) then
    d.map fun kv => if kv.1 = t then (t, v) else kv
  else d ++ [(t, v)]

/-- `get_t60_data` (variance_test.py lines 6–32): a dict from T60 to the
file's `mean_score` column; files whose T60 fails to parse or whose read
fails are skipped. -/
def get_t60_data (folder : List VFile) : List (ℚ × List (Option ℚ)) :=
  folder.foldl
    (fun d f =>
      match f.t60, f.mean_scores with
      | some t, some scores => dictInsert d t scores
      | _, _ => d)
    []

/-- The key set of the dict. -/
def dkeys (d : List (ℚ × List (Option ℚ))) : List ℚ := d.map Prod.fst

/-- Dict lookup (`folder_data[t60]`; only reached for keys known present). -/
def dictGet (d : List (ℚ × List (Option ℚ))) (t : ℚ) : List (Option ℚ) :=
  match d.find? fun kv => decide (kv.1 = t) with
  | some kv => kv.2
  | none => []

/-- `np.median` of a rational sample: middle of the ascending ordering, or
the average of the two middles (0 stands in for numpy's NaN on an empty
sample). -/
def median (l : List ℚ) : ℚ :=
  let s := l.insertionSort (· ≤ ·)
  if l.length = 0 then 0
  else if l.length % 2 = 1 then s.getD (l.length / 2) 0
  else (s.getD (l.length / 2 - 1) 0 + s.getD (l.length / 2) 0) / 2

/-- The two-sample Levene W statistic with the default `center="median"`
(Brown–Forsythe): with zᵢⱼ = |xᵢⱼ - median(xᵢ)|, k = 2 groups and N = n₁ + n₂,
W = (N - k)/(k - 1) · Σᵢ nᵢ(z̄ᵢ - z̄)² / Σᵢⱼ (zᵢⱼ - z̄ᵢ)².  `ℚ` division by
zero is 0 where numpy would produce NaN/inf (degenerate samples produce a
warning row in scipy, not an exception). -/
def leveneW (x1 x2 : List ℚ) : ℚ :=
  let z1 := x1.map fun v => |v - median x1|
  let z2 := x2.map fun v => |v - median x2|
  let n1 : ℚ := z1.length
  let n2 : ℚ := z2.length
  let zbar1 := z1.sum / n1
  let zbar2 := z2.sum / n2
  let zbar := (z1.sum + z2.sum) / (n1 + n2)
  let num := n1 * (zbar1 - zbar) ^ 2 + n2 * (zbar2 - zbar) ^ 2
  let den := (z1.map fun z => (z - zbar1) ^ 2).sum + (z2.map fun z => (z - zbar2) ^ 2).sum
  ((n1 + n2 - 2) / (2 - 1)) * (num / den)

/-- `scipy.stats.levene(scores1, scores2)` as called on line 63.  The lists
come from `tolist()` without coercion, so non-numeric entries reach numpy,
whose arithmetic on such object arrays raises — the failure the
`try`/`except` of the T60 loop catches.  On numeric data the call returns the
W statistic (the p-value, an F-distribution tail probability computed
alongside it inside scipy, shares the fate of the statistic and is not
modelled). -/
def levene (s1 s2 : List (Option ℚ)) : Except String ℚ :=
  match allNums s1, allNums s2 with
  | some x1, some x2 => .ok (leveneW x1 x2)
  | _, _ => .error "unsupported operand type"
where
  /-- Materialise a fully numeric sample, or fail. -/
  allNums : List (Option ℚ) → Option (List ℚ)
    | [] => some []
    | none :: _ => none
    | some q :: rest => (allNums rest).map fun xs => q :: xs

/-- `sorted(set(folder1_data.keys()).intersection(folder2_data.keys()))`
(lines 49–50): the distinct common keys in ascending order. -/
def common_t60s (d1 d2 : List (ℚ × List (Option ℚ))) : List ℚ :=
  (((dkeys d1).filter fun t => decide (t ∈ dkeys d2)).dedup).insertionSort (· ≤ ·)

/-- Row ordering used by `results_df.sort_values(by="T60")`. -/
def rowLE (a b : ℚ × ℚ) : Prop := a.1 ≤ b.1

instance : DecidableRel rowLE := fun a b => inferInstanceAs (Decidable (a.1 ≤ b.1))

instance : IsTotal (ℚ × ℚ) rowLE := ⟨fun a b => le_total a.1 b.1⟩

instance : IsTrans (ℚ × ℚ) rowLE := ⟨fun _ _ _ => le_trans⟩

/-- `levene_test_between_folders` (variance_test.py lines 35–81): run
Levene's test at every common T60, collecting (T60, statistic) result rows; a
per-T60 failure is caught, logged and omitted.  The collected table is then
sorted by T60 and written out — but `results_df.sort_values(by="T60")` on
line 79 sits outside every `try`: when `results` is empty (no common T60, or
every Levene call failed), `pd.DataFrame([])` has no columns at all and
`sort_values(by="T60")` raises an uncaught `KeyError`, aborting the run
before anything is written.  When `results` is non-empty the DataFrame has
the `T60` column and the sort succeeds. -/
def levene_test_between_folders (folder1 folder2 : List VFile) :
    Except String (List (ℚ × ℚ)) :=
  let folder1_data := get_t60_data folder1
  let folder2_data := get_t60_data folder2
  let results := (common_t60s folder1_data folder2_data).filterMap fun t =>
    match levene (dictGet folder1_data t) (dictGet folder2_data t) with
    | .ok stat => some (t, stat)
    | .error _ => none
  if results.isEmpty then
    .error "KeyError: T60"
  else
    .ok (results.insertionSort rowLE)

/-- Whether an embedded scipy call succeeded. -/
def okBool {ε α : Type} : Except ε α → Bool
  | .ok _ => true
  | .error _ => false

/-- The T60 column of the collected result rows, before the final sort, is
exactly the common-T60 list restricted to the successful Levene calls. -/
lemma results_map_fst (d1 d2 : List (ℚ × List (Option ℚ))) (l : List ℚ) :
    ((l.filterMap fun t =>
        match levene (dictGet d1 t) (dictGet d2 t) with
        | .ok stat => some (t, stat)
        | .error _ => none).map Prod.fst)
      = l.filter fun t => okBool (levene (dictGet d1 t) (dictGet d2 t)) := by
  induction l with
  | nil => rfl
  | cons t ts ih =>
    rw [List.filterMap_cons, List.filter_cons]
    cases h : levene (dictGet d1 t) (dictGet d2 t) with
    | ok s => simp [h, okBool, ih]
    | error e => simp [h, okBool, ih]

/-- The collected result rows are already in ascending T60 order. -/
lemma results_sorted (d1 d2 : List (ℚ × List (Option ℚ))) :
    ((common_t60s d1 d2).filterMap fun t =>
        match levene (dictGet d1 t) (dictGet d2 t) with
        | .ok stat => some (t, stat)
        | .error _ => none).Sorted rowLE := by
  have hcommon : (common_t60s d1 d2).Sorted (· ≤ ·) := List.sorted_insertionSort _ _
  rw [List.Sorted] at *
  rw [List.pairwise_filterMap]
  refine hcommon.imp ?_
  intro t t2 hle x hx y hy
  cases h1 : levene (dictGet d1 t) (dictGet d2 t) with
  | error e => rw [h1] at hx; cases hx
  | ok s =>
    cases h2 : levene (dictGet d1 t2) (dictGet d2 t2) with
    | error e => rw [h2] at hy; cases hy
    | ok s2 =>
      rw [h1] at hx
      rw [h2] at hy
      cases hx
      cases hy
      exact hle

/-- The collected result rows, with their fst-projection characterised. -/
lemma levene_results_spec (folder1 folder2 : List VFile) :
    ∃ results : List (ℚ × ℚ),
      levene_test_between_folders folder1 folder2 =
        (if results.isEmpty then .error "KeyError: T60"
         else .ok (results.insertionSort rowLE)) ∧
      results.map Prod.fst =
        ((common_t60s (get_t60_data folder1) (get_t60_data folder2)).filter fun t =>
          okBool (levene (dictGet (get_t60_data folder1) t)
            (dictGet (get_t60_data folder2) t))) ∧
      (results.insertionSort rowLE).map Prod.fst = results.map Prod.fst := by
  refine ⟨(common_t60s (get_t60_data folder1) (get_t60_data folder2)).filterMap fun t =>
    match levene (dictGet (get_t60_data folder1) t) (dictGet (get_t60_data folder2) t) with
    | .ok stat => some (t, stat)
    | .error _ => none, rfl, results_map_fst _ _ _, ?_⟩
  rw [(results_sorted (get_t60_data folder1) (get_t60_data folder2)).insertionSort_eq]

/-- The common T60s whose Levene call succeeds: exactly those that survive
into the result table. -/
def survivors (folder1 folder2 : List VFile) : List ℚ :=
  (common_t60s (get_t60_data folder1) (get_t60_data folder2)).filter fun t =>
    okBool (levene (dictGet (get_t60_data folder1) t) (dictGet (get_t60_data folder2) t))

/-- C7 (amended): a per-T60 Levene failure is caught and only drops that
T60's row — provided some common T60 succeeds, the run completes and the
written table's T60 column is exactly the common-T60 list restricted to the
successful calls.  But when every common T60 fails, or no common T60 exists,
the final `sort_values(by="T60")` on the empty, column-less result frame
raises an uncaught `KeyError` and the whole run aborts with nothing
written. -/
theorem levene_per_t60_failures_omitted (folder1 folder2 : List VFile) :
    (survivors folder1 folder2 ≠ [] →
      ∃ out, levene_test_between_folders folder1 folder2 = .ok out ∧
        out.map Prod.fst = survivors folder1 folder2) ∧
    (survivors folder1 folder2 = [] →
      levene_test_between_folders folder1 folder2 = .error "KeyError: T60") := by
  obtain ⟨results, heq, hfst, hsorteq⟩ := levene_results_spec folder1 folder2
  rw [show survivors folder1 folder2 =
    ((common_t60s (get_t60_data folder1) (get_t60_data folder2)).filter fun t =>
      okBool (levene (dictGet (get_t60_data folder1) t)
        (dictGet (get_t60_data folder2) t))) from rfl]
  constructor
  · intro hne
    have hres : results ≠ [] := fun h0 => hne (by rw [← hfst, h0]; rfl)
    have hie : results.isEmpty = false := by
      cases results with
      | nil => exact absurd rfl hres
      | cons a l => rfl
    refine ⟨results.insertionSort rowLE, ?_, ?_⟩
    · rw [heq, hie]; rfl
    · rw [hsorteq, hfst]
  · intro hnil
    have hres : results = [] := by
      have hmap := hfst.trans hnil
      exact List.map_eq_nil_iff.mp hmap
    rw [heq, hres]
    rfl

/-- C6: whenever a result table is written, every row belongs to a T60
present in both folders (the output T60 set sits inside the key
intersection), one row per T60, in ascending T60 order. -/
theorem levene_results_common_and_sorted (folder1 folder2 : List VFile) :
    ∀ out, levene_test_between_folders folder1 folder2 = .ok out →
      (∀ row ∈ out,
          row.1 ∈ dkeys (get_t60_data folder1) ∧ row.1 ∈ dkeys (get_t60_data folder2)) ∧
        (out.map Prod.fst).Sorted (· ≤ ·) ∧
        (out.map Prod.fst).Nodup := by
  intro out hout
  obtain ⟨results, heq, hfst0, hsorteq⟩ := levene_results_spec folder1 folder2
  rw [heq] at hout
  have hsorted : out = results.insertionSort rowLE := by
    by_cases hie : results.isEmpty
    · rw [if_pos hie] at hout; cases hout
    · rw [if_neg hie] at hout; exact (Except.ok.inj hout).symm
  have hfst : out.map Prod.fst =
      (common_t60s (get_t60_data folder1) (get_t60_data folder2)).filter fun t =>
        okBool (levene (dictGet (get_t60_data folder1) t)
          (dictGet (get_t60_data folder2) t)) := by
    rw [hsorted, hsorteq, hfst0]
  have hcommon_sorted : (common_t60s (get_t60_data folder1) (get_t60_data folder2)).Sorted
      (· ≤ ·) := List.sorted_insertionSort _ _
  have hcommon_nodup : (common_t60s (get_t60_data folder1) (get_t60_data folder2)).Nodup := by
    unfold common_t60s
    exact (List.perm_insertionSort _ _).nodup_iff.mpr (List.nodup_dedup _)
  have hcommon_mem : ∀ t ∈ common_t60s (get_t60_data folder1) (get_t60_data folder2),
      t ∈ dkeys (get_t60_data folder1) ∧ t ∈ dkeys (get_t60_data folder2) := by
    intro t ht
    unfold common_t60s at ht
    have := (List.perm_insertionSort (· ≤ ·) _).mem_iff.mp ht
    rw [List.mem_dedup, List.mem_filter] at this
    exact ⟨this.1, by simpa using this.2⟩
  refine ⟨?_, ?_, ?_⟩
  · intro row hrow
    have hfstmem : row.1 ∈ out.map Prod.fst := List.mem_map.mpr ⟨row, hrow, rfl⟩
    rw [hfst] at hfstmem
    exact hcommon_mem row.1 (List.mem_of_mem_filter hfstmem)
  · rw [hfst]
    exact hcommon_sorted.filter _
  · rw [hfst]
    exact hcommon_nodup.filter _

/-- C6/C7 witness data: first folder, one T60. -/
def vfolder1 : List VFile := [⟨some 1, some [some 1, some 2, some 4]⟩]

/-- C6/C7 witness data: second folder, shares T60 = 1 with `vfolder1` and has
a T60 = 2 of its own. -/
def vfolder2 : List VFile :=
  [⟨some 1, some [some 1, some 3, some 4]⟩, ⟨some 2, some [some 5]⟩]

/-- C6 witness: a concrete run writes exactly the row (1, 0), whose T60 the
claim theorem places in both folders' key sets. -/
theorem levene_results_common_and_sorted_witness :
    levene_test_between_folders vfolder1 vfolder2 = .ok [((1:ℚ), (0:ℚ))] ∧
      ((1:ℚ) ∈ dkeys (get_t60_data vfolder1) ∧ (1:ℚ) ∈ dkeys (get_t60_data vfolder2)) :=
  ⟨by decide,
    ((levene_results_common_and_sorted vfolder1 vfolder2 [((1:ℚ), (0:ℚ))] (by decide)).1
      ((1:ℚ), (0:ℚ)) (by decide))⟩

/-- C7 counterexample data: the single common T60 carries a non-numeric
`mean_score` cell, so its Levene call fails. -/
def vfail1 : List VFile := [⟨some 1, some [none]⟩]

/-- C7 counterexample data: numeric partner folder for `vfail1`. -/
def vfail2 : List VFile := [⟨some 1, some [some 1, some 2]⟩]

/-- C7 counterexample data: no T60 in common with `vdisj2`. -/
def vdisj1 : List VFile := [⟨some 1, some [some 1]⟩]

/-- C7 counterexample data: no T60 in common with `vdisj1`. -/
def vdisj2 : List VFile := [⟨some 2, some [some 1]⟩]

/-- C7 counterexample: in exactly the two cases the claim says never abort —
every common T60's Levene call failing, and no common T60 at all — the run
aborts with the uncaught `KeyError` from sorting the empty, column-less
result frame, and no table is written. -/
theorem levene_empty_results_abort :
    levene_test_between_folders vfail1 vfail2 = .error "KeyError: T60" ∧
      levene_test_between_folders vdisj1 vdisj2 = .error "KeyError: T60" := by
  constructor
  · decide
  · decide

/-- C7 witness: one concrete run with a surviving T60 completes with exactly
the surviving rows, and one concrete all-fail run aborts with the KeyError. -/
theorem levene_per_t60_failures_omitted_witness :
    (survivors vfolder1 vfolder2 ≠ [] ∧
      ∃ out, levene_test_between_folders vfolder1 vfolder2 = .ok out ∧
        out.map Prod.fst = survivors vfolder1 vfolder2) ∧
    (survivors vfail1 vfail2 = [] ∧
      levene_test_between_folders vfail1 vfail2 = .error "KeyError: T60") :=
  ⟨⟨by decide, (levene_per_t60_failures_omitted vfolder1 vfolder2).1 (by decide)⟩,
    ⟨by decide, (levene_per_t60_failures_omitted vfail1 vfail2).2 (by decide)⟩⟩

end VarianceTest

namespace BatchScorer

/-- A directory entry of an audio folder: the file name together with the
payload `sf.read` would deliver for it (samples, sample rate). -/
structure WavFile where
  name : String
  samples : List ℚ
  rate : ℕ
deriving DecidableEq

/-- The value written into the second column of a score CSV row: a score on
the success path, `f"Error: {str(e)}"` on the error path. -/
inductive CellOut where
  | score (q : ℚ)
  | err (msg : String)
deriving DecidableEq

/-- The external scoring capability (`pystoi.stoi` / `pysiib.SIIB`): clean
samples, degraded samples, sample rate; an `error` is an exception the
surrounding `try` turns into an error row. -/
abbrev Scorer := List ℚ → List ℚ → ℕ → Except String ℚ

/-- Python's string comparison: lexicographic over the code points. -/
def charListLE : List Char → List Char → Bool
  | [], _ => true
  | _ :: _, [] => false
  | c :: cs, d :: ds =>
    if c.val < d.val then true
    else if d.val < c.val then false
    else charListLE cs ds

/-- The `sorted(...)` order of the two scripts: ascending file name. -/
def nameLE (a b : WavFile) : Prop := charListLE a.name.data b.name.data = true

instance : DecidableRel nameLE := fun a b =>
  inferInstanceAs (Decidable (charListLE a.name.data b.name.data = true))

/-- The listing both scripts build on lines 33–36:
`sorted([f for f in os.listdir(...) if f.endswith(".wav")])` (Python sorts
the name strings; the files carry their names, so sorting records by name is
the same listing; `f.endswith(".wav")` is the character-suffix test on the
name). -/
def wav_listing (folder : List WavFile) : List WavFile :=
  (folder.filter fun f => ".wav".data.isSuffixOf f.name.data).insertionSort nameLE

/-- The `ValueError` message raised on count mismatch (lines 39–42 of both
scripts). -/
def mismatchMsg (n1 n2 : ℕ) (path : String) : String :=
  "Mismatch: " ++ toString n1 ++ " clean files vs " ++ toString n2 ++
    " degraded files in " ++ path

/-- `np.max(np.abs(x))` (`np.max` raises on an empty array; theorems about
the paths that reach this quantity assume non-empty signals). -/
def maxAbs (l : List ℚ) : ℚ := (l.map fun v => |v|).foldl max 0

/-- Spec-side vocabulary: the clean-signal alignment of lines 60–66 of both
scripts — pad with zeros up to the degraded length, or truncate to it. -/
def alignTo (c d : List ℚ) : List ℚ :=
  if c.length < d.length then c ++ List.replicate (d.length - c.length) 0
  else c.take d.length

/-- Spec-side vocabulary: `x / np.max(np.abs(x))`. -/
def normalize (s : List ℚ) : List ℚ := s.map fun v => v / maxAbs s

/-- Spec-side vocabulary: `np.tile(x, k)`. -/
def tile (s : List ℚ) (k : ℕ) : List ℚ := (List.replicate k s).flatten

end BatchScorer

namespace GetEstoi

open BatchScorer

/-- The per-pair body of `process_rir_folder` (get_estoi.py lines 45–82):
read both waveforms, raise on a sample-rate mismatch, pad/truncate the clean
signal to the degraded length, score, and write
`[f"{rir_subfolder_name}/{degraded_file}", score]`; any exception instead
writes `[degraded_file, f"Error: {e}"]` and the loop continues. -/
def process_pair (scorer : Scorer) (rir_subfolder_name : String) (cf df : WavFile) :
    String × CellOut :=
  if cf.rate ≠ df.rate then
    (df.name, .err ("Error: Sampling rates do not match for " ++ cf.name ++ " and " ++ df.name))
  else
    let clean_signal :=
      if cf.samples.length < df.samples.length then
        cf.samples ++ List.replicate (df.samples.length - cf.samples.length) 0
      else if df.samples.length < cf.samples.length then
        cf.samples.take df.samples.length
      else cf.samples
    match scorer clean_signal df.samples cf.rate with
    | .ok estoi_score => (rir_subfolder_name ++ "/" ++ df.name, .score estoi_score)
    | .error e => (df.name, .err ("Error: " ++ e))

/-- `process_rir_folder` (get_estoi.py lines 25–82): list and sort both
folders' `.wav` files, raise the count-mismatch `ValueError` before touching
any pair, else process the pairs in zipped sorted order.  The result is the
rows appended to the CSV together with the error that aborted the folder, if
any. -/
def process_rir_folder (scorer : Scorer) (rir_folder_path : String)
    (clean_audio_folder rir_folder : List WavFile) (rir_subfolder_name : String) :
    List (String × CellOut) × Option String :=
  let clean_files := wav_listing clean_audio_folder
  let degraded_files := wav_listing rir_folder
  if clean_files.length ≠ degraded_files.length then
    ([], some (mismatchMsg clean_files.length degraded_files.length rir_folder_path))
  else
    ((clean_files.zip degraded_files).map fun cd =>
      process_pair scorer rir_subfolder_name cd.1 cd.2, none)

end GetEstoi

namespace GetSiib

open BatchScorer

/-- The per-pair body of `process_rir_folder` (get_siib.py lines 45–94): read
both waveforms, raise on a sample-rate mismatch, pad/truncate the clean
signal, normalise both signals by their peak, tile both by the repeat policy
(×10 when the aligned duration is ≤ 5 s, else ×5), score, and write
`[f"{rir_subfolder_name}/{degraded_file}", score]`; any exception instead
writes `[degraded_file, f"Error: {e}"]` and the loop continues. -/
def process_pair (scorer : Scorer) (rir_subfolder_name : String) (cf df : WavFile) :
    String × CellOut :=
  if cf.rate ≠ df.rate then
    (df.name, .err ("Error: Sampling rates do not match for " ++ cf.name ++ " and " ++ df.name))
  else
    let clean_aligned :=
      if cf.samples.length < df.samples.length then
        cf.samples ++ List.replicate (df.samples.length - cf.samples.length) 0
      else if df.samples.length < cf.samples.length then
        cf.samples.take df.samples.length
      else cf.samples
    let clean_signal := clean_aligned.map fun v => v / maxAbs clean_aligned
    let degraded_signal := df.samples.map fun v => v / maxAbs df.samples
    let signal_length_seconds := (clean_signal.length : ℚ) / (cf.rate : ℚ)
    let repeat_count := if signal_length_seconds ≤ 5 then 10 else 5
    let clean_tiled := (List.replicate repeat_count clean_signal).flatten
    let degraded_tiled := (List.replicate repeat_count degraded_signal).flatten
    match scorer clean_tiled degraded_tiled cf.rate with
    | .ok siib_score => (rir_subfolder_name ++ "/" ++ df.name, .score siib_score)
    | .error e => (df.name, .err ("Error: " ++ e))

/-- `process_rir_folder` (get_siib.py lines 25–94): identical folder handling
to the eSTOI script, with the SIIB per-pair body. -/
def process_rir_folder (scorer : Scorer) (rir_folder_path : String)
    (clean_audio_folder rir_folder : List WavFile) (rir_subfolder_name : String) :
    List (String × CellOut) × Option String :=
  let clean_files := wav_listing clean_audio_folder
  let degraded_files := wav_listing rir_folder
  if clean_files.length ≠ degraded_files.length then
    ([], some (mismatchMsg clean_files.length degraded_files.length rir_folder_path))
  else
    ((clean_files.zip degraded_files).map fun cd =>
      process_pair scorer rir_subfolder_name cd.1 cd.2, none)

end GetSiib

namespace BatchScorer

/-- Sorting does not change how many `.wav` files the listing holds: the
listing length is the folder's `.wav` file count. -/
lemma wav_listing_length (folder : List WavFile) :
    (wav_listing folder).length =
      folder.countP fun f => ".wav".data.isSuffixOf f.name.data := by
  unfold wav_listing
  rw [List.length_insertionSort, ← List.countP_eq_length_filter]

/-- C8: when the number of clean `.wav` files differs from the number of
degraded `.wav` files, both Batch Scorers raise the count-mismatch
`ValueError` immediately: no pair is scored (the result is the same for every
scorer) and no row is written (the row list is empty). -/
theorem count_mismatch_aborts (scorerE scorerS : Scorer) (rir_folder_path : String)
    (clean_audio_folder rir_folder : List WavFile) (rir_subfolder_name : String)
    (h : (clean_audio_folder.countP fun f => ".wav".data.isSuffixOf f.name.data) ≠
      (rir_folder.countP fun f => ".wav".data.isSuffixOf f.name.data)) :
    GetEstoi.process_rir_folder scorerE rir_folder_path clean_audio_folder rir_folder
        rir_subfolder_name =
      ([], some (mismatchMsg (wav_listing clean_audio_folder).length
        (wav_listing rir_folder).length rir_folder_path)) ∧
    GetSiib.process_rir_folder scorerS rir_folder_path clean_audio_folder rir_folder
        rir_subfolder_name =
      ([], some (mismatchMsg (wav_listing clean_audio_folder).length
        (wav_listing rir_folder).length rir_folder_path)) := by
  have h2 : (wav_listing clean_audio_folder).length ≠ (wav_listing rir_folder).length := by
    rw [wav_listing_length, wav_listing_length]
    exact h
  constructor
  · simp [GetEstoi.process_rir_folder, h2]
  · simp [GetSiib.process_rir_folder, h2]

/-- A trivial scorer for witnesses. -/
def sc0 : Scorer := fun _ _ _ => .ok 0

/-- C8 witness data: three clean `.wav` files. -/
def clean3 : List WavFile :=
  [⟨"a.wav", [0], 1⟩, ⟨"b.wav", [0], 1⟩, ⟨"c.wav", [0], 1⟩]

/-- C8 witness data: two degraded `.wav` files. -/
def rir2 : List WavFile := [⟨"d.wav", [0], 1⟩, ⟨"e.wav", [0], 1⟩]

/-- C8 witness: the spec's 3-versus-2 scenario aborts both scripts with the
mismatch error and an empty row list. -/
theorem count_mismatch_aborts_witness :
    ((clean3.countP fun f => ".wav".data.isSuffixOf f.name.data) ≠
        (rir2.countP fun f => ".wav".data.isSuffixOf f.name.data)) ∧
      GetEstoi.process_rir_folder sc0 "rirpath" clean3 rir2 "r" =
        ([], some (mismatchMsg (wav_listing clean3).length (wav_listing rir2).length
          "rirpath")) ∧
      GetSiib.process_rir_folder sc0 "rirpath" clean3 rir2 "r" =
        ([], some (mismatchMsg (wav_listing clean3).length (wav_listing rir2).length
          "rirpath")) :=
  ⟨by decide,
    (count_mismatch_aborts sc0 sc0 "rirpath" clean3 rir2 "r" (by decide)).1,
    (count_mismatch_aborts sc0 sc0 "rirpath" clean3 rir2 "r" (by decide)).2⟩

/-- The inline clean-signal alignment of both scripts equals `alignTo` (the
equal-length fall-through leaves the signal unchanged, which a full-length
`take` also does). -/
lemma inline_align_eq (c d : List ℚ) :
    (if c.length < d.length then c ++ List.replicate (d.length - c.length) 0
     else if d.length < c.length then c.take d.length else c) = alignTo c d := by
  rcases lt_trichotomy c.length d.length with h | h | h
  · simp [alignTo, h]
  · have h1 : ¬c.length < d.length := by omega
    have h2 : ¬d.length < c.length := by omega
    rw [alignTo, if_neg h1, if_neg h2, if_neg h1, ← h, List.take_length]
  · have h1 : ¬c.length < d.length := by omega
    rw [alignTo, if_neg h1, if_pos h, if_neg h1]

/-- On the SIIB success path both signals handed to the scorer are the
aligned/normalised signals tiled `k` times, with `k` picked by the ≤ 5 s
duration test. -/
lemma siib_success_shape (F : List ℚ → List ℚ → ℕ → ℚ) (rir_subfolder_name : String)
    (cf df : WavFile) (hrate : cf.rate = df.rate) :
    ∃ k : ℕ,
      GetSiib.process_pair (fun c d fs => .ok (F c d fs)) rir_subfolder_name cf df =
        (rir_subfolder_name ++ "/" ++ df.name,
          .score (F (tile (normalize (alignTo cf.samples df.samples)) k)
            (tile (normalize df.samples) k) cf.rate)) ∧
      ((((normalize (alignTo cf.samples df.samples)).length : ℚ) / (cf.rate : ℚ) ≤ 5 →
          k = 10) ∧
        (¬(((normalize (alignTo cf.samples df.samples)).length : ℚ) / (cf.rate : ℚ) ≤ 5) →
          k = 5)) := by
  have hne : ¬(cf.rate ≠ df.rate) := fun hc => hc hrate
  by_cases hdur : (((alignTo cf.samples df.samples).map fun v =>
      v / maxAbs (alignTo cf.samples df.samples)).length : ℚ) / (cf.rate : ℚ) ≤ 5
  · refine ⟨10, ?_, ⟨fun _ => rfl, fun hc => absurd ?_ hc⟩⟩
    · simp only [GetSiib.process_pair, if_neg hne, inline_align_eq, if_pos hdur,
        normalize, tile]
    · show ((normalize (alignTo cf.samples df.samples)).length : ℚ) / (cf.rate : ℚ) ≤ 5
      exact hdur
  · refine ⟨5, ?_, ⟨fun hc => absurd hc ?_, fun _ => rfl⟩⟩
    · simp only [GetSiib.process_pair, if_neg hne, inline_align_eq, if_neg hdur,
        normalize, tile]
    · show ¬((normalize (alignTo cf.samples df.samples)).length : ℚ) / (cf.rate : ℚ) ≤ 5
      exact hdur

/-- C9: in the SIIB scorer, after length alignment both signals are tiled
according to the repeat policy before scoring: ×10 when the aligned duration
(length over sample rate) is at most 5 seconds, else ×5. -/
theorem siib_repeat_policy (F : List ℚ → List ℚ → ℕ → ℚ) (rir_subfolder_name : String)
    (cf df : WavFile) (hrate : cf.rate = df.rate) :
    ∃ k : ℕ,
      GetSiib.process_pair (fun c d fs => .ok (F c d fs)) rir_subfolder_name cf df =
        (rir_subfolder_name ++ "/" ++ df.name,
          .score (F (tile (normalize (alignTo cf.samples df.samples)) k)
            (tile (normalize df.samples) k) cf.rate)) ∧
      ((((normalize (alignTo cf.samples df.samples)).length : ℚ) / (cf.rate : ℚ) ≤ 5 →
          k = 10) ∧
        (¬(((normalize (alignTo cf.samples df.samples)).length : ℚ) / (cf.rate : ℚ) ≤ 5) →
          k = 5)) :=
  siib_success_shape F rir_subfolder_name cf df hrate

/-- C9 witness data: a short clean recording. -/
def wcf : WavFile := ⟨"c.wav", [1, 2], 4⟩

/-- C9 witness data: a degraded recording at the same rate. -/
def wdf : WavFile := ⟨"d.wav", [2, 1], 4⟩

/-- C9 witness: on a concrete short pair the repeat policy applies with
k = 10. -/
theorem siib_repeat_policy_witness :
    wcf.rate = wdf.rate ∧
      ∃ k : ℕ,
        GetSiib.process_pair (fun c d fs => .ok ((fun _ _ _ => (7:ℚ)) c d fs)) "r" wcf wdf =
          ("r" ++ "/" ++ wdf.name,
            .score ((fun _ _ _ => (7:ℚ))
              (tile (normalize (alignTo wcf.samples wdf.samples)) k)
              (tile (normalize wdf.samples) k) wcf.rate)) ∧
        ((((normalize (alignTo wcf.samples wdf.samples)).length : ℚ) / (wcf.rate : ℚ) ≤ 5 →
            k = 10) ∧
          (¬(((normalize (alignTo wcf.samples wdf.samples)).length : ℚ) / (wcf.rate : ℚ) ≤ 5) →
            k = 5)) := by
  exact ⟨rfl, siib_repeat_policy (fun _ _ _ => (7:ℚ)) "r" wcf wdf rfl⟩

/-- C10: in both Batch Scorers the record-name column differs between the
paths: a failing pair (here: sample-rate mismatch) is written under the bare
degraded file name — identically for any two RIR sub-folder names, so such
error rows are indistinguishable across sub-folders — while a successful pair
is written under `"<rir_subfolder_name>/<degraded_file>"`. -/
theorem record_name_paths (scorer : Scorer) (F : List ℚ → List ℚ → ℕ → ℚ)
    (r1 r2 : String) (cf df : WavFile) :
    (cf.rate ≠ df.rate →
      GetEstoi.process_pair scorer r1 cf df =
          (df.name,
            .err ("Error: Sampling rates do not match for " ++ cf.name ++ " and " ++ df.name)) ∧
        GetSiib.process_pair scorer r1 cf df =
          (df.name,
            .err ("Error: Sampling rates do not match for " ++ cf.name ++ " and " ++ df.name)) ∧
        GetEstoi.process_pair scorer r1 cf df = GetEstoi.process_pair scorer r2 cf df ∧
        GetSiib.process_pair scorer r1 cf df = GetSiib.process_pair scorer r2 cf df) ∧
    (cf.rate = df.rate →
      (∃ v, GetEstoi.process_pair (fun c d fs => .ok (F c d fs)) r1 cf df =
        (r1 ++ "/" ++ df.name, .score v)) ∧
      (∃ w, GetSiib.process_pair (fun c d fs => .ok (F c d fs)) r1 cf df =
        (r1 ++ "/" ++ df.name, .score w))) := by
  constructor
  · intro h
    refine ⟨?_, ?_, ?_, ?_⟩ <;>
      simp [GetEstoi.process_pair, GetSiib.process_pair, h]
  · intro h
    have hne : ¬(cf.rate ≠ df.rate) := fun hc => hc h
    constructor
    · exact ⟨F (alignTo cf.samples df.samples) df.samples cf.rate,
        by simp only [GetEstoi.process_pair, if_neg hne, inline_align_eq]⟩
    · obtain ⟨k, heq, -⟩ := siib_success_shape F r1 cf df h
      exact ⟨_, heq⟩

/-- C10 witness data: a pair with mismatched sample rates. -/
def wcfm : WavFile := ⟨"c.wav", [1], 1⟩

/-- C10 witness data: degraded side of the mismatched pair. -/
def wdfm : WavFile := ⟨"d.wav", [1], 2⟩

/-- C10 witness: on a concrete mismatched pair both scripts write the bare
degraded name with the error string, independent of the sub-folder name, and
on a concrete well-matched pair both write the prefixed name. -/
theorem record_name_paths_witness :
    (wcfm.rate ≠ wdfm.rate ∧
      GetEstoi.process_pair sc0 "r1" wcfm wdfm =
        (wdfm.name,
          .err ("Error: Sampling rates do not match for " ++ wcfm.name ++ " and " ++
            wdfm.name)) ∧
      GetEstoi.process_pair sc0 "r1" wcfm wdfm = GetEstoi.process_pair sc0 "r2" wcfm wdfm) ∧
    (wcf.rate = wdf.rate ∧
      (∃ v, GetEstoi.process_pair (fun c d fs => .ok ((fun _ _ _ => (0:ℚ)) c d fs)) "r1" wcf wdf =
        ("r1" ++ "/" ++ wdf.name, .score v))) :=
  ⟨⟨by decide,
      ((record_name_paths sc0 (fun _ _ _ => (0:ℚ)) "r1" "r2" wcfm wdfm).1 (by decide)).1,
      ((record_name_paths sc0 (fun _ _ _ => (0:ℚ)) "r1" "r2" wcfm wdfm).1 (by decide)).2.2.1⟩,
    ⟨rfl,
      ((record_name_paths sc0 (fun _ _ _ => (0:ℚ)) "r1" "r2" wcf wdf).2 rfl).1⟩⟩

end BatchScorer
